import Mathlib

/-!
Verification of the F1 strategy analytics pipeline.

The definitions below are a shallow embedding of the Python sources:
`data_collection.py` (session fetch, outer-join reconciliation, basic
statistics), `day3_advanced_analysis.py` (multi-event collection, grouped
summaries), `f1_dashboard.py` (metrics and chart functions) and
`fastf1_collector.py` (exploratory analysis).  Dataframes are lists of
records, nullable cells are `Option`, numeric cells are exact rationals,
and Python exceptions are `Except` values caught into `Option`.
-/

namespace F1

/-- A row of a qualifying session results table (`quali.results`):
position, driver abbreviation, team name and the three session times. -/
structure QualiResultRow where
  Position : Option ℚ
  Abbreviation : String
  TeamName : Option String
  Q1 : Option ℚ
  Q2 : Option ℚ
  Q3 : Option ℚ
deriving DecidableEq

/-- A row of a race session results table (`race.results`):
position, driver abbreviation, points and finishing status. -/
structure RaceResultRow where
  Position : Option ℚ
  Abbreviation : String
  Points : Option ℚ
  Status : Option String
deriving DecidableEq

/-- The `race_info` dictionary built in `collect_race_data`. -/
structure RaceInfo where
  year : Int
  race : String
  event_name : String
  date : String
deriving DecidableEq

/-- The dictionary returned by `collect_race_data` on success. -/
structure RaceData where
  race_results : List RaceResultRow
  quali_results : List QualiResultRow
  race_info : RaceInfo
deriving DecidableEq

/-- `pandas` `Series.fillna` on a single nullable cell. -/
def fillna (a b : Option ℚ) : Option ℚ :=
  match a with
  | some v => some v
  | none => b

/-- The qualifying time selected in `create_combined_dataframe`
(data_collection.py line 85): `Q3.fillna(Q2.fillna(Q1))`. -/
def best_time_fillna (q : QualiResultRow) : Option ℚ :=
  fillna q.Q3 (fillna q.Q2 q.Q1)

/-- The qualifying time printed by `explore_race_session_data`
(fastf1_collector.py line 59): `Q3 if notna else Q2 if notna else Q1`. -/
def displayedQualiTime (q : QualiResultRow) : Option ℚ :=
  if q.Q3.isSome then q.Q3 else if q.Q2.isSome then q.Q2 else q.Q1

/-- Modelled from the spec: `best_qualifying_time` as the spec words it,
"first non-null of (third-round, second-round, first-round) qualifying
time; null if all three are null".  Kept separate from the source-derived
`best_time_fillna` so the two can be compared. -/
def first_non_null (a b c : Option ℚ) : Option ℚ :=
  match a with
  | some v => some v
  | none =>
    match b with
    | some v => some v
    | none => c

/-- A row of the intermediate `quali_df` dataframe (columns `Position`,
`Abbreviation`, `TeamName`, `quali_time`). -/
structure QualiDfRow where
  Position : Option ℚ
  Abbreviation : String
  TeamName : Option String
  quali_time : Option ℚ
deriving DecidableEq

/-- `quali_df` as built in `create_combined_dataframe` lines 81-86. -/
def make_quali_df (quali_results : List QualiResultRow) : List QualiDfRow :=
  quali_results.map fun q =>
    ⟨q.Position, q.Abbreviation, q.TeamName, best_time_fillna q⟩

/-- A row of the merged dataframe right after `pd.merge` (line 96), with
the renamed columns of line 100.  Fields of a driver missing from one
side of the outer join are null. -/
structure MergedRow where
  quali_position : Option ℚ
  driver : String
  team : Option String
  quali_time : Option ℚ
  race_position : Option ℚ
  points : Option ℚ
  status : Option String
deriving DecidableEq

/-- A merged row whose driver appears only in the qualifying table:
race-side fields are null. -/
def leftOnlyRow (q : QualiDfRow) : MergedRow :=
  ⟨q.Position, q.Abbreviation, q.TeamName, q.quali_time, none, none, none⟩

/-- A merged row whose driver appears only in the race table:
qualifying-side fields are null. -/
def rightOnlyRow (r : RaceResultRow) : MergedRow :=
  ⟨none, r.Abbreviation, none, none, r.Position, r.Points, r.Status⟩

/-- A merged row for a driver present in both tables. -/
def bothRow (q : QualiDfRow) (r : RaceResultRow) : MergedRow :=
  ⟨q.Position, q.Abbreviation, q.TeamName, q.quali_time, r.Position, r.Points, r.Status⟩

/-- One left row's contribution to the outer merge: each matching race
row combined with it, or the left row alone with null race fields when
no race row shares its key. -/
def mergeBlock (race_df : List RaceResultRow) (q : QualiDfRow) :
    List MergedRow :=
  let ms := race_df.filter fun r => r.Abbreviation == q.Abbreviation
  if ms.isEmpty then [leftOnlyRow q] else ms.map (bothRow q)

/-- The race rows whose key matches no qualifying row. -/
def unmatchedRace (quali_df : List QualiDfRow) (race_df : List RaceResultRow) :
    List RaceResultRow :=
  race_df.filter fun r =>
    quali_df.all fun q => !(q.Abbreviation == r.Abbreviation)

/-- `pd.merge(quali_df, race_df, on=Abbreviation, how=outer)` (line 96):
each left row pairs with every right row sharing its key (alone with null
right fields when there is none), followed by the right rows whose key
matches no left row. -/
def mergeOuter (quali_df : List QualiDfRow) (race_df : List RaceResultRow) :
    List MergedRow :=
  quali_df.flatMap (mergeBlock race_df) ++
  (unmatchedRace quali_df race_df).map rightOnlyRow

/-- Elementwise subtraction of two nullable columns; `pandas` propagates
null through arithmetic. -/
def optSub (a b : Option ℚ) : Option ℚ :=
  match a, b with
  | some x, some y => some (x - y)
  | _, _ => none

/-- A row of the combined dataframe returned by
`create_combined_dataframe`. -/
structure CombinedRow where
  quali_position : Option ℚ
  driver : String
  team : Option String
  quali_time : Option ℚ
  race_position : Option ℚ
  points : Option ℚ
  status : Option String
  position_change : Option ℚ
  year : Int
  race : String
  event_name : String
deriving DecidableEq

/-- `create_combined_dataframe` (data_collection.py lines 74-110): build
`quali_df` with the best qualifying time, outer-merge with the race
results on the abbreviation, compute `position_change` as race position
minus qualifying position, and stamp `year`, `race` and `event_name`
from `race_info` onto every row. -/
def create_combined_dataframe (rd : RaceData) : List CombinedRow :=
  let quali_df := make_quali_df rd.quali_results
  (mergeOuter quali_df rd.race_results).map fun m =>
    { quali_position := m.quali_position
      driver := m.driver
      team := m.team
      quali_time := m.quali_time
      race_position := m.race_position
      points := m.points
      status := m.status
      position_change := optSub m.race_position m.quali_position
      year := rd.race_info.year
      race := rd.race_info.race
      event_name := rd.race_info.event_name }

/-- The column names of the combined dataframe: the renames of line 100
followed by the columns added at lines 103 and 106-108, in assignment
order. -/
def combined_columns : List String :=
  ["quali_position", "driver", "team", "quali_time",
   "race_position", "points", "status"] ++
  ["position_change", "year", "race", "event_name"]

/-- `pandas` `Series.mean`: arithmetic mean of the non-null entries,
null when there is none. -/
def seriesMean (xs : List (Option ℚ)) : Option ℚ :=
  let vs := xs.filterMap id
  if vs.isEmpty then none else some (vs.sum / vs.length)

/-- `pandas` `Series.min`: least non-null entry, null when there is
none. -/
def seriesMin (xs : List (Option ℚ)) : Option ℚ :=
  (xs.filterMap id).min?

/-- `pandas` `Series.max`: greatest non-null entry, null when there is
none. -/
def seriesMax (xs : List (Option ℚ)) : Option ℚ :=
  (xs.filterMap id).max?

/-- `pandas` `Series.std` squared (variance with `ddof=1`) of the
non-null entries, null when fewer than two.  The source's standard
deviation is the square root of this exact rational, which determines
it. -/
def seriesVar (xs : List (Option ℚ)) : Option ℚ :=
  let vs := xs.filterMap id
  if vs.length ≤ 1 then none
  else
    let m : ℚ := vs.sum / vs.length
    some ((vs.map fun v => (v - m) * (v - m)).sum / ((vs.length : ℚ) - 1))

/-- The Pearson kernel of a list of pairs: `(n·Σxy − Σx·Σy,
(n·Σx² − (Σx)²)·(n·Σy² − (Σy)²))`.  The Pearson correlation is the
first component divided by the square root of the second, so this exact
rational pair determines it. -/
def corrKernelPairs (ps : List (ℚ × ℚ)) : ℚ × ℚ :=
  let n : ℚ := ps.length
  let sx := (ps.map Prod.fst).sum
  let sy := (ps.map Prod.snd).sum
  let sxy := (ps.map fun p => p.1 * p.2).sum
  let sxx := (ps.map fun p => p.1 * p.1).sum
  let syy := (ps.map fun p => p.2 * p.2).sum
  (n * sxy - sx * sy, (n * sxx - sx * sx) * (n * syy - sy * sy))

/-- The pairs `pandas` `Series.corr` actually correlates: positions
where both series are non-null (pairwise deletion). -/
def corrPairs (xs ys : List (Option ℚ)) : List (ℚ × ℚ) :=
  (xs.zip ys).filterMap fun p =>
    match p.1, p.2 with
    | some a, some b => some (a, b)
    | _, _ => none

/-- `df[x].corr(df[y])` as its determining Pearson kernel. -/
def seriesCorr (xs ys : List (Option ℚ)) : ℚ × ℚ :=
  corrKernelPairs (corrPairs xs ys)

/-- `clean_df = df.dropna(subset=[quali_position, race_position])`
(data_collection.py line 115). -/
def dropna_positions (df : List CombinedRow) : List CombinedRow :=
  df.filter fun r => r.quali_position.isSome && r.race_position.isSome

/-- The statistics dictionary built by `analyze_qualifying_performance`
(data_collection.py lines 124-130); `correlation`, `r_squared` and
`std_position_change` are carried as the exact rational kernels that
determine them. -/
structure QualiStats where
  correlation : ℚ × ℚ
  r_squared : ℚ × ℚ
  sample_size : ℕ
  mean_position_change : Option ℚ
  std_position_change : Option ℚ
deriving DecidableEq

/-- `analyze_qualifying_performance` (data_collection.py lines
112-132): drop rows with a null position on either side, return
`(None, None)` when nothing remains, else the statistics over the clean
rows together with the clean rows. -/
def analyze_qualifying_performance (df : List CombinedRow) :
    Option QualiStats × Option (List CombinedRow) :=
  let clean_df := dropna_positions df
  if clean_df.length = 0 then (none, none)
  else
    let corr := seriesCorr (clean_df.map (fun r => r.quali_position))
      (clean_df.map (fun r => r.race_position))
    (some { correlation := corr
            r_squared := (corr.1 * corr.1, corr.2)
            sample_size := clean_df.length
            mean_position_change :=
              seriesMean (clean_df.map (fun r => r.position_change))
            std_position_change :=
              seriesVar (clean_df.map (fun r => r.position_change)) },
     some clean_df)

/-- A row of the exported flat file as the dashboard loads it
(day3_full_analysis.csv schema); every cell is nullable. -/
structure DashRow where
  quali_position : Option ℚ
  driver : Option String
  team : Option String
  quali_time : Option String
  race_position : Option ℚ
  points : Option ℚ
  status : Option String
  position_change : Option ℚ
  year : Option ℚ
  race : Option String
  event_name : Option String
  weather_condition : Option String
deriving DecidableEq

/-- A loaded dataframe: its header and its rows. -/
structure DashFrame where
  cols : List String
  rows : List DashRow
deriving DecidableEq

/-- The header of the day-3 export: the combined columns plus
`weather_condition` added by `collect_full_season_data`. -/
def dash_columns : List String :=
  combined_columns ++ ["weather_condition"]

/-- Python's substring containment `pat in s` on character lists. -/
def containsSub (pat : List Char) : List Char → Bool
  | [] => pat.isEmpty
  | c :: t => pat.isPrefixOf (c :: t) || containsSub pat t

/-- Python's `s.lower()` as a character list. -/
def lowerData (s : String) : List Char :=
  s.data.map Char.toLower

/-- Column sniffing `[col for col in df.columns if "position" in
col.lower()]` (f1_dashboard.py lines 81, 178, 203). -/
def pos_cols (cols : List String) : List String :=
  cols.filter fun c => containsSub "position".data (lowerData c)

/-- Column sniffing `[col for col in df.columns if "team" in
col.lower()]` (f1_dashboard.py lines 82, 204). -/
def team_cols (cols : List String) : List String :=
  cols.filter fun c => containsSub "team".data (lowerData c)

/-- Numeric cell lookup by column name in the flattened schema. -/
def numCol (r : DashRow) (c : String) : Option ℚ :=
  if c == "quali_position" then r.quali_position
  else if c == "race_position" then r.race_position
  else if c == "position_change" then r.position_change
  else if c == "points" then r.points
  else if c == "year" then r.year
  else none

/-- String cell lookup by column name in the flattened schema. -/
def strCol (r : DashRow) (c : String) : Option String :=
  if c == "driver" then r.driver
  else if c == "team" then r.team
  else if c == "status" then r.status
  else if c == "race" then r.race
  else if c == "event_name" then r.event_name
  else if c == "weather_condition" then r.weather_condition
  else none

/-- `Series.nunique`: number of distinct non-null values. -/
def seriesNunique (xs : List (Option String)) : ℕ :=
  (xs.filterMap id).dedup.length

/-- The metrics dictionary of `calculate_metrics`; a `none` field models
an absent key, and the correlation and R² are carried as their exact
determining kernels. -/
structure Metrics where
  qualifying_correlation : Option (ℚ × ℚ)
  r_squared : Option (ℚ × ℚ)
  avg_position_change : Option ℚ
  biggest_gain : Option ℚ
  biggest_loss : Option ℚ
  total_teams : Option ℕ
  total_records : Option ℕ
deriving DecidableEq

/-- `calculate_metrics` (f1_dashboard.py lines 74-106): empty dict for
an empty frame; otherwise correlation, R² and position-change
aggregates over the first two position-named columns when there are at
least two, team count over the first team-named column when there is
one, and the record count. -/
def calculate_metrics (df : DashFrame) : Metrics :=
  if df.rows.isEmpty then ⟨none, none, none, none, none, none, none⟩
  else
    let tt : Option ℕ :=
      match team_cols df.cols with
      | tc :: _ => some (seriesNunique (df.rows.map fun r => strCol r tc))
      | [] => none
    match pos_cols df.cols with
    | qual_pos :: race_pos :: _ =>
      let xs := df.rows.map fun r => numCol r qual_pos
      let ys := df.rows.map fun r => numCol r race_pos
      let corr := seriesCorr xs ys
      let changes := (xs.zip ys).map fun p => optSub p.2 p.1
      { qualifying_correlation := some corr
        r_squared := some (corr.1 * corr.1, corr.2)
        avg_position_change := seriesMean changes
        biggest_gain := seriesMin changes
        biggest_loss := seriesMax changes
        total_teams := tt
        total_records := some df.rows.length }
    | _ =>
      { qualifying_correlation := none
        r_squared := none
        avg_position_change := none
        biggest_gain := none
        biggest_loss := none
        total_teams := tt
        total_records := some df.rows.length }

/-- A fresh aggregation entry `(key, sum, count)` over the non-null
values seen for a key. -/
def aggEntry (k : String) (v : Option ℚ) : String × ℚ × ℕ :=
  match v with
  | some x => (k, x, 1)
  | none => (k, 0, 0)

/-- Fold one keyed nullable value into a per-key sum/count table. -/
def addToAgg (k : String) (v : Option ℚ) :
    List (String × ℚ × ℕ) → List (String × ℚ × ℕ)
  | [] => [aggEntry k v]
  | (k0, s, c) :: rest =>
    if k0 == k then
      (match v with
       | some x => (k0, s + x, c + 1)
       | none => (k0, s, c)) :: rest
    else (k0, s, c) :: addToAgg k v rest

/-- `df.groupby(team)[quali_position]` aggregated into per-team sums
and counts of the non-null positions; rows with a null team key are
dropped, as `pandas` `groupby` does. -/
def groupAgg : List CombinedRow → List (String × ℚ × ℕ)
  | [] => []
  | r :: rest =>
    match r.team with
    | some k => addToAgg k r.quali_position (groupAgg rest)
    | none => groupAgg rest

/-- `df.groupby(team)[quali_position].mean()` looked up at one team
key (day3_advanced_analysis.py line 75, day2_analysis.py line 50): the
aggregated sum over count, null when the key is absent or has no
non-null position. -/
def team_quali_mean (df : List CombinedRow) (t : String) : Option ℚ :=
  match (groupAgg df).find? (fun e => e.1 == t) with
  | none => none
  | some (_, s, c) => if c = 0 then none else some ((s : ℚ) / c)

/-- Modelled from the spec: the rows of one team, whose qualifying
positions the spec's arithmetic mean ranges over. -/
def team_rows (df : List CombinedRow) (t : String) : List CombinedRow :=
  df.filter fun r => r.team == some t

/-- A minimal combined row carrying a team and a qualifying position. -/
def mk_team_row (t : String) (p : ℚ) : CombinedRow :=
  ⟨some p, "", some t, none, none, none, none, none, 0, "", ""⟩

/-- Three teams with qualifying positions [1,2,3], [4,5,6] and
[7,8,9]. -/
def demo_team_rows : List CombinedRow :=
  [mk_team_row "TeamA" 1, mk_team_row "TeamA" 2, mk_team_row "TeamA" 3,
   mk_team_row "TeamB" 4, mk_team_row "TeamB" 5, mk_team_row "TeamB" 6,
   mk_team_row "TeamC" 7, mk_team_row "TeamC" 8, mk_team_row "TeamC" 9]

/-- The warnings `st.warning` can emit while building charts. -/
inductive Warn where
  | missingQualiCols
  | noQualiData
  | cannotConvertTimes
  | missingWeatherCols
deriving DecidableEq

/-- A Python scalar cell reaching `time_to_seconds`: a number or a
string. -/
inductive PyScalar where
  | num (q : ℚ)
  | str (s : String)
deriving DecidableEq

/-- The primitive Python operations `time_to_seconds` relies on:
`floatOfString` models `float(s)` on a string, `none` standing for the
raised `ValueError`; `strOfNum` models `str(x)` for a numeric cell.
The two recorded facts hold of Python: a string containing "days" is
never a valid float literal, and the decimal rendering of a number
never contains "days". -/
structure PyPrims where
  floatOfString : String → Option ℚ
  strOfNum : ℚ → String
  days_not_float : ∀ s : String,
    containsSub "days".data s.data = true → floatOfString s = none
  num_str_no_days : ∀ q : ℚ,
    containsSub "days".data (strOfNum q).data = false

/-- Python `str(x)` on a scalar. -/
def pyStr (P : PyPrims) : PyScalar → String
  | .num q => P.strOfNum q
  | .str s => s

/-- Python `float(x)` on a scalar; `none` models the raised error. -/
def pyFloat (P : PyPrims) : PyScalar → Option ℚ
  | .num q => some q
  | .str s => P.floatOfString s

/-- Python `s.split()` (no separator): split on whitespace runs,
discarding empty pieces; accumulator-based over character lists. -/
def wordsAux : List Char → List Char → List (List Char)
  | [], cur => if cur.isEmpty then [] else [cur.reverse]
  | c :: t, cur =>
    if c.isWhitespace then
      if cur.isEmpty then wordsAux t [] else cur.reverse :: wordsAux t []
    else wordsAux t (c :: cur)

/-- Python `s.split(sep)`: split on a separator character, keeping
empty pieces. -/
def splitOnCharAux (sep : Char) : List Char → List Char → List (List Char)
  | [], cur => [cur.reverse]
  | c :: t, cur =>
    if c == sep then cur.reverse :: splitOnCharAux sep t []
    else splitOnCharAux sep t (c :: cur)

/-- `time_to_seconds` (f1_dashboard.py lines 123-135): inside a
`try/except` returning `None` on any error, check whether `str(x)`
contains "days"; if so take the last whitespace-separated word, split
it on ":", and when that gives exactly three parts return
minutes·60 + seconds from parts 1 and 2 (`none` when a `float` call in
the branch raises); otherwise — including the fall-through when the
split does not give three parts — return `float(x)`. -/
def time_to_seconds (P : PyPrims) (x : PyScalar) : Option ℚ :=
  let s := pyStr P x
  if containsSub "days".data s.data then
    match (wordsAux s.data []).getLast? with
    | none => none
    | some time_part =>
      match splitOnCharAux ':' time_part [] with
      | [_, mbits, sbits] =>
        match P.floatOfString ⟨mbits⟩, P.floatOfString ⟨sbits⟩ with
        | some m, some sec => some (m * 60 + sec)
        | _, _ => none
      | _ => pyFloat P x
  else pyFloat P x

/-- Modelled from the spec: the input "parses as a day-prefixed H:M:S
timestamp string" — the string contains "days", its last
whitespace-separated word splits on ":" into exactly three parts, and
the minute and second parts parse as floats; the parsed value is
minutes·60 + seconds (the code does not use the hours part). -/
def dayHMSparse (P : PyPrims) (x : PyScalar) : Option ℚ :=
  let s := pyStr P x
  if containsSub "days".data s.data then
    match (wordsAux s.data []).getLast? with
    | none => none
    | some time_part =>
      match splitOnCharAux ':' time_part [] with
      | [_, mbits, sbits] =>
        match P.floatOfString ⟨mbits⟩, P.floatOfString ⟨sbits⟩ with
        | some m, some sec => some (m * 60 + sec)
        | _, _ => none
      | _ => none
  else none

/-- The qualifying-chart figure: the plotted rows with their converted
times. -/
structure QualiFig where
  points : List (DashRow × ℚ)
deriving DecidableEq

/-- `create_qualifying_chart` (f1_dashboard.py lines 108-174): warn and
skip when the `quali_time` or `team` column is missing; drop rows with
a null time or team; convert the remaining times, dropping rows whose
conversion fails; warn and skip when nothing is left, else plot the
converted rows. -/
def create_qualifying_chart (P : PyPrims) (df : DashFrame) :
    Option QualiFig × List Warn :=
  if "quali_time" ∉ df.cols ∨ "team" ∉ df.cols then
    (none, [Warn.missingQualiCols])
  else
    let df_clean := df.rows.filter fun r =>
      r.quali_time.isSome && r.team.isSome
    if df_clean.isEmpty then (none, [Warn.noQualiData])
    else
      let withSecs := df_clean.filterMap fun r =>
        match r.quali_time with
        | some t => (time_to_seconds P (PyScalar.str t)).map fun v => (r, v)
        | none => none
      if withSecs.isEmpty then (none, [Warn.cannotConvertTimes])
      else (some ⟨withSecs⟩, [])

/-- The position-change histogram figure: the change column it bins. -/
structure HistFig where
  changes : List (Option ℚ)
deriving DecidableEq

/-- `create_position_change_histogram` (f1_dashboard.py lines 176-199):
silently skip (no warning) when fewer than two position-named columns
exist, else bin the differences of the second and first. -/
def create_position_change_histogram (df : DashFrame) :
    Option HistFig × List Warn :=
  match pos_cols df.cols with
  | qual_pos :: race_pos :: _ =>
    (some ⟨((df.rows.map fun r => numCol r qual_pos).zip
        (df.rows.map fun r => numCol r race_pos)).map fun p =>
          optSub p.2 p.1⟩, [])
  | _ => (none, [])

/-- The team box-plot figure: team and position per row. -/
structure TeamFig where
  cells : List (Option String × Option ℚ)
deriving DecidableEq

/-- `create_team_performance_chart` (f1_dashboard.py lines 201-218):
silently skip (no warning) when no position-named or no team-named
column exists, else box-plot the first position column by the first
team column. -/
def create_team_performance_chart (df : DashFrame) :
    Option TeamFig × List Warn :=
  match pos_cols df.cols, team_cols df.cols with
  | p0 :: _, t0 :: _ =>
    (some ⟨df.rows.map fun r => (strCol r t0, numCol r p0)⟩, [])
  | _, _ => (none, [])

/-- Column sniffing for weather-related columns
(f1_dashboard.py lines 222-223). -/
def weather_cols (cols : List String) : List String :=
  cols.filter fun c =>
    containsSub "weather".data (lowerData c) ||
    containsSub "rain".data (lowerData c) ||
    containsSub "temp".data (lowerData c) ||
    containsSub "condition".data (lowerData c)

/-- `create_weather_chart` (f1_dashboard.py lines 220-242): warn and
skip when no weather-named or no position-named column exists. -/
def create_weather_chart (df : DashFrame) : Option TeamFig × List Warn :=
  match weather_cols df.cols, pos_cols df.cols with
  | w0 :: _, p0 :: _ =>
    (some ⟨df.rows.map fun r => (strCol r w0, numCol r p0)⟩, [])
  | _, _ => (none, [Warn.missingWeatherCols])

/-- The rows the qualifying chart actually plots (empty when the chart
was skipped). -/
def plotted_points (P : PyPrims) (df : DashFrame) : List (DashRow × ℚ) :=
  match (create_qualifying_chart P df).1 with
  | some fig => fig.points
  | none => []

/-- A simple decimal-literal parser (optional fractional part) standing
in for Python `float()` when instantiating `PyPrims` concretely. -/
def natOfDigits (cs : List Char) : ℕ :=
  cs.foldl (fun n c => 10 * n + (c.toNat - 48)) 0

/-- Value of a digit string with at most one decimal point. -/
def ratOfDigits (cs : List Char) : ℚ :=
  match splitOnCharAux '.' cs [] with
  | [ip] => natOfDigits ip
  | [ip, fp] => natOfDigits ip + (natOfDigits fp : ℚ) / (10 ^ fp.length)
  | _ => 0

/-- The concrete `float(s)` model: digits with at most one decimal
point and at least one digit; everything else fails. -/
def decimalFloat (s : String) : Option ℚ :=
  let cs := s.data
  if (cs.all fun c => c.isDigit || c == '.') && cs.any Char.isDigit &&
      cs.count '.' ≤ 1 then
    some (ratOfDigits cs)
  else none

/-- A frame lacking any position-named column. -/
def df_no_positions : DashFrame :=
  ⟨["driver", "team"], []⟩

/-- A concrete `PyPrims` instantiation: `decimalFloat` for `float(s)`
and a fixed rendering for `str(x)`, with the two recorded facts
established for them. -/
def pyFloatPrims : PyPrims where
  floatOfString := decimalFloat
  strOfNum := fun _ => "0"
  days_not_float := by
    intro s hs
    unfold decimalFloat
    by_cases hall : (s.data.all fun c => c.isDigit || c == '.') = true
    · exfalso
      have hd : 'd' ∈ s.data := by
        have hmem : ∀ l : List Char,
            containsSub "days".data l = true → 'd' ∈ l := by
          intro l
          induction l with
          | nil =>
            intro h
            rw [containsSub] at h
            exact absurd (List.isEmpty_iff.mp h) (by decide)
          | cons a t ih =>
            intro h
            rw [containsSub, Bool.or_eq_true] at h
            rcases h with h | h
            · exact (List.isPrefixOf_iff_prefix.mp h).sublist.subset
                (by decide)
            · exact List.mem_cons_of_mem a (ih h)
        exact hmem s.data hs
      have := List.all_eq_true.mp hall 'd' hd
      simp at this
    · have hall' : (s.data.all fun c => c.isDigit || c == '.') = false := by
        cases hb : (s.data.all fun c => c.isDigit || c == '.')
        · rfl
        · exact absurd hb hall
      simp [hall']
  num_str_no_days := fun _ => by
    show containsSub "days".data "0".data = false
    decide

/-- A `quali_results[[Position, Abbreviation]]` row renamed to
`(QualiPos, Driver)` (fastf1_collector.py lines 107-111). -/
structure QualiPosRow where
  QualiPos : Option ℚ
  Driver : String
deriving DecidableEq

/-- A `race.results[[Position, Abbreviation]]` row renamed to
`(RacePos, Driver)`. -/
structure RacePosRow where
  RacePos : Option ℚ
  Driver : String
deriving DecidableEq

/-- A row of the collector's `comparison` dataframe. -/
structure SampleComparisonRow where
  QualiPos : Option ℚ
  Driver : String
  RacePos : Option ℚ
  PositionChange : Option ℚ
deriving DecidableEq

/-- The `comparison` dataframe of `analyze_sample_data`
(fastf1_collector.py lines 114-115): inner merge on `Driver`, then
`PositionChange = QualiPos − RacePos`. -/
def analyze_sample_comparison (qs : List QualiPosRow) (rs : List RacePosRow) :
    List SampleComparisonRow :=
  qs.flatMap fun q =>
    (rs.filter fun r => r.Driver == q.Driver).map fun r =>
      ⟨q.QualiPos, q.Driver, r.RacePos, optSub q.QualiPos r.RacePos⟩

/-- Concrete event metadata used in concrete evaluations. -/
def demo_race_info : RaceInfo :=
  ⟨2024, "Bahrain", "Bahrain Grand Prix", "2024-03-02"⟩

/-- A concrete qualifying results row. -/
def demo_quali_row : QualiResultRow :=
  ⟨some 1, "VER", some "Red Bull Racing", some 92, some 91, some 90⟩

/-- A concrete race results row for the same driver. -/
def demo_race_row : RaceResultRow :=
  ⟨some 1, "VER", some 25, some "Finished"⟩

/-- A concrete `collect_race_data` result with one driver in each table. -/
def demo_race_data : RaceData :=
  ⟨[demo_race_row], [demo_quali_row], demo_race_info⟩

/-- The combined row produced from `demo_race_data`. -/
def demo_combined_row : CombinedRow :=
  { quali_position := some 1
    driver := "VER"
    team := some "Red Bull Racing"
    quali_time := some 90
    race_position := some 1
    points := some 25
    status := some "Finished"
    position_change := some 0
    year := 2024
    race := "Bahrain"
    event_name := "Bahrain Grand Prix" }

/-- `collect_race_data` (data_collection.py lines 36-72): the body
calls the external provider (`fastf1.get_session(...).load()` for both
sessions), whose raised exception is modelled as `Except.error`; the
surrounding `try/except` turns any error into `None`. -/
def collect_race_data (provider : Int → String → Except String RaceData)
    (year : Int) (race_name : String) : Option RaceData :=
  match provider year race_name with
  | Except.ok d => some d
  | Except.error _ => none

/-- A combined row with the manually added `weather_condition` column
(day3_advanced_analysis.py line 45). -/
structure Day3Row where
  row : CombinedRow
  weather_condition : String
deriving DecidableEq

/-- `df[weather_condition] = weather` applied to a whole frame. -/
def addWeather (w : String) (df : List CombinedRow) : List Day3Row :=
  df.map fun r => ⟨r, w⟩

/-- The per-event loop of `collect_full_season_data`
(day3_advanced_analysis.py lines 38-51): each event is fetched; a
failed fetch is skipped and the loop continues with the remaining
events. -/
def season_frames (provider : Int → String → Except String RaceData)
    (year : Int) : List (String × String) → List (List Day3Row)
  | [] => []
  | (race_name, weather) :: rest =>
    match collect_race_data provider year race_name with
    | some rd =>
      addWeather weather (create_combined_dataframe rd) ::
        season_frames provider year rest
    | none => season_frames provider year rest

/-- `collect_full_season_data` (day3_advanced_analysis.py lines 20-59):
concatenate the per-event frames; `None` when no event succeeded. -/
def collect_full_season_data
    (provider : Int → String → Except String RaceData)
    (races : List (String × String)) : Option (List Day3Row) :=
  let all := season_frames provider 2024 races
  if all.isEmpty then none else some all.flatten

/-- A provider that raises exactly on event "E3". -/
def demo_provider : Int → String → Except String RaceData :=
  fun _ name =>
    if name == "E3" then Except.error "ProviderUnavailable"
    else Except.ok demo_race_data

/-- Five requested events, the third of which will fail. -/
def demo_events : List (String × String) :=
  [("E1", "Dry"), ("E2", "Dry"), ("E3", "Wet"), ("E4", "Dry"),
   ("E5", "Dry")]

/-- A concrete combined row with a null qualifying position. -/
def demo_null_row : CombinedRow :=
  { quali_position := none
    driver := "DNS"
    team := none
    quali_time := none
    race_position := some 20
    points := none
    status := none
    position_change := none
    year := 2024
    race := "Bahrain"
    event_name := "Bahrain Grand Prix" }

/-- A concrete exported-file row with both positions present. -/
def demo_dash_row : DashRow :=
  ⟨some 1, some "VER", some "Red Bull Racing", none, some 1, some 25,
   some "Finished", some 0, some 2024, some "Bahrain",
   some "Bahrain Grand Prix", some "Dry"⟩

/-- A concrete exported-file row with a null qualifying position. -/
def demo_dash_null_row : DashRow :=
  ⟨none, some "SAR", some "Williams", none, some 20, none, some "DNF",
   none, some 2024, some "Bahrain", some "Bahrain Grand Prix", some "Dry"⟩

/-- A concrete loaded dataframe with the day-3 export header. -/
def demo_dash_frame : DashFrame :=
  ⟨dash_columns, [demo_dash_row]⟩

/-- Evaluating the reconcile operation on the concrete one-driver input. -/
lemma demo_combined_eval :
    create_combined_dataframe demo_race_data = [demo_combined_row] := by
  simp only [create_combined_dataframe, demo_race_data, make_quali_df,
    mergeOuter, demo_quali_row, demo_race_row, demo_race_info,
    best_time_fillna, fillna, List.map_cons, List.map_nil,
    List.flatMap_cons, List.flatMap_nil, List.filter, bothRow, mergeBlock,
    unmatchedRace, leftOnlyRow, rightOnlyRow, optSub, demo_combined_row]
  norm_num [List.filter, bothRow, optSub]

/-- C2: for every qualifying row, the derived `quali_time` equals the
first non-null of (Q3, Q2, Q1) and is null exactly when all three are
null; the whole `quali_time` column of `quali_df` is that selection, the
collector's printed selection agrees, and the spec's concrete examples
hold: (Q1=90.1, Q2=null, Q3=null) gives 90.1, (Q1=90.1, Q2=89.5,
Q3=null) gives 89.5, all-null gives null. -/
theorem best_qualifying_time_spec :
    (∀ q : QualiResultRow,
      best_time_fillna q = first_non_null q.Q3 q.Q2 q.Q1 ∧
      (best_time_fillna q = none ↔ q.Q3 = none ∧ q.Q2 = none ∧ q.Q1 = none) ∧
      displayedQualiTime q = best_time_fillna q) ∧
    (∀ qs : List QualiResultRow,
      (make_quali_df qs).map QualiDfRow.quali_time =
        qs.map fun q => first_non_null q.Q3 q.Q2 q.Q1) ∧
    best_time_fillna ⟨none, "X", none, some 90.1, none, none⟩ = some 90.1 ∧
    best_time_fillna ⟨none, "X", none, some 90.1, some 89.5, none⟩ = some 89.5 ∧
    best_time_fillna ⟨none, "X", none, none, none, none⟩ = none := by
  have h1 : ∀ q : QualiResultRow,
      best_time_fillna q = first_non_null q.Q3 q.Q2 q.Q1 := by
    rintro ⟨p, a, t, q1, q2, q3⟩
    cases q3 <;> cases q2 <;> rfl
  refine ⟨fun q => ⟨h1 q, ?_, ?_⟩, ?_, rfl, rfl, rfl⟩
  · rcases q with ⟨p, a, t, q1, q2, q3⟩
    cases q3 <;> cases q2 <;> cases q1 <;>
      simp [best_time_fillna, fillna]
  · rcases q with ⟨p, a, t, q1, q2, q3⟩
    cases q3 <;> cases q2 <;> rfl
  · intro qs
    have : (fun q : QualiResultRow => best_time_fillna q) =
        fun q => first_non_null q.Q3 q.Q2 q.Q1 := funext h1
    simp only [make_quali_df, List.map_map, Function.comp_def, ← this]

/-- C6 counterexample: the combined dataframe has columns for the season
year, race name and event display name but no event-date column, and the
reconcile result for `demo_race_data` is non-empty, so its rows do not
carry the event date. -/
theorem combined_columns_lack_date :
    create_combined_dataframe demo_race_data = [demo_combined_row] ∧
    "year" ∈ combined_columns ∧ "race" ∈ combined_columns ∧
    "event_name" ∈ combined_columns ∧ "date" ∉ combined_columns := by
  refine ⟨demo_combined_eval, by decide, by decide, by decide, by decide⟩

/-- C6 amended: `create_combined_dataframe` stamps the season year, race
name and event display name (but not the event date) onto every output
row. -/
theorem create_combined_dataframe_metadata (rd : RaceData) :
    ∀ row ∈ create_combined_dataframe rd,
      row.year = rd.race_info.year ∧
      row.race = rd.race_info.race ∧
      row.event_name = rd.race_info.event_name := by
  intro row hrow
  simp only [create_combined_dataframe, List.mem_map] at hrow
  obtain ⟨m, _, rfl⟩ := hrow
  exact ⟨rfl, rfl, rfl⟩

/-- Witness for the amended C6 at a concrete input. -/
theorem create_combined_dataframe_metadata_witness :
    demo_combined_row.year = 2024 ∧
    demo_combined_row.race = "Bahrain" ∧
    demo_combined_row.event_name = "Bahrain Grand Prix" :=
  create_combined_dataframe_metadata demo_race_data demo_combined_row
    (by rw [demo_combined_eval]; exact List.mem_singleton.mpr rfl)

/-- C7: when both the qualifying table and the race table are empty, the
reconcile operation returns the empty sequence (and in particular does
not fail). -/
theorem create_combined_dataframe_empty (info : RaceInfo) :
    create_combined_dataframe ⟨[], [], info⟩ = [] := rfl

/-- When the race keys are distinct, a key filter returns no row or
exactly one. -/
lemma filter_abbr_cases (l : List RaceResultRow) (k : String)
    (h : (l.map RaceResultRow.Abbreviation).Nodup) :
    l.filter (fun r => r.Abbreviation == k) = [] ∨
    ∃ a ∈ l, a.Abbreviation = k ∧
      l.filter (fun r => r.Abbreviation == k) = [a] := by
  induction l with
  | nil => exact Or.inl rfl
  | cons a t ih =>
    simp only [List.map_cons, List.nodup_cons] at h
    obtain ⟨ha, ht⟩ := h
    by_cases hk : a.Abbreviation = k
    · refine Or.inr ⟨a, List.mem_cons_self a t, hk, ?_⟩
      have ht0 : t.filter (fun r => r.Abbreviation == k) = [] := by
        refine List.filter_eq_nil_iff.mpr fun r hr => ?_
        simp only [beq_iff_eq]
        intro hrk
        exact ha (by rw [hk, ← hrk]; exact List.mem_map_of_mem _ hr)
      simp [List.filter_cons, hk, ht0]
    · have hb : (a.Abbreviation == k) = false := beq_eq_false_iff_ne.mpr hk
      rcases ih ht with h0 | ⟨b, hb1, hb2, hb3⟩
      · exact Or.inl (by simp [List.filter_cons, hb, h0])
      · exact Or.inr ⟨b, List.mem_cons_of_mem a hb1, hb2,
          by simp [List.filter_cons, hb, hb3]⟩

/-- Every row of a merge block carries the left row's key as driver. -/
lemma mergeBlock_driver (race_df : List RaceResultRow) (q : QualiDfRow) :
    ∀ m ∈ mergeBlock race_df q, m.driver = q.Abbreviation := by
  intro m hm
  simp only [mergeBlock] at hm
  split at hm
  · rw [List.mem_singleton] at hm
    subst hm; rfl
  · rw [List.mem_map] at hm
    obtain ⟨r, _, rfl⟩ := hm; rfl

/-- Rows of a merge block that actually matched a race row have their
driver among the race keys. -/
lemma mergeBlock_cases (race_df : List RaceResultRow) (q : QualiDfRow) :
    ∀ m ∈ mergeBlock race_df q, m = leftOnlyRow q ∨
      ∃ r ∈ race_df, r.Abbreviation = q.Abbreviation ∧ m = bothRow q r := by
  intro m hm
  simp only [mergeBlock] at hm
  split at hm
  · rw [List.mem_singleton] at hm
    exact Or.inl hm
  · rw [List.mem_map] at hm
    obtain ⟨r, hr, rfl⟩ := hm
    rw [List.mem_filter] at hr
    exact Or.inr ⟨r, hr.1, by simpa using hr.2, rfl⟩

/-- Under distinct race keys each merge block is a single row carrying
the left key. -/
lemma mergeBlock_map_driver (race_df : List RaceResultRow) (q : QualiDfRow)
    (h : (race_df.map RaceResultRow.Abbreviation).Nodup) :
    (mergeBlock race_df q).map MergedRow.driver = [q.Abbreviation] := by
  rcases filter_abbr_cases race_df q.Abbreviation h with h0 | ⟨a, _, _, h1⟩
  · simp [mergeBlock, h0, leftOnlyRow]
  · simp [mergeBlock, h1, bothRow]

/-- Under distinct race keys, the left part of the outer merge has
exactly the left keys as its driver column. -/
lemma mergeFirst_map_driver (quali_df : List QualiDfRow)
    (race_df : List RaceResultRow)
    (h : (race_df.map RaceResultRow.Abbreviation).Nodup) :
    (quali_df.flatMap (mergeBlock race_df)).map MergedRow.driver =
      quali_df.map QualiDfRow.Abbreviation := by
  induction quali_df with
  | nil => rfl
  | cons q t ih =>
    simp only [List.flatMap_cons, List.map_append, List.map_cons,
      mergeBlock_map_driver race_df q h, ih]
    rfl

/-- Membership in the unmatched-race filter. -/
lemma unmatchedRace_mem (quali_df : List QualiDfRow)
    (race_df : List RaceResultRow) (r : RaceResultRow) :
    r ∈ unmatchedRace quali_df race_df ↔
      r ∈ race_df ∧
      r.Abbreviation ∉ quali_df.map QualiDfRow.Abbreviation := by
  simp only [unmatchedRace, List.mem_filter, List.all_eq_true,
    Bool.not_eq_eq_eq_not, Bool.not_true, beq_eq_false_iff_ne, ne_eq,
    List.mem_map]
  constructor
  · rintro ⟨h1, h2⟩
    exact ⟨h1, fun ⟨q, hq, he⟩ => h2 q hq he⟩
  · rintro ⟨h1, h2⟩
    exact ⟨h1, fun q hq he => h2 ⟨q, hq, he⟩⟩

/-- The driver column of `make_quali_df` is the abbreviation column of
its input. -/
lemma make_quali_df_keys (qs : List QualiResultRow) :
    (make_quali_df qs).map QualiDfRow.Abbreviation =
      qs.map QualiResultRow.Abbreviation := by
  simp only [make_quali_df, List.map_map]
  rfl

/-- C1: with distinct driver codes on each side, the reconcile output
has between `max` and sum of the input sizes many rows, every driver
code occurring in either input appears exactly once in its driver
column, and a driver missing from one session has that session's fields
(and `position_change`) null. -/
theorem reconcile_outer_join_bounds (rd : RaceData)
    (hq : (rd.quali_results.map QualiResultRow.Abbreviation).Nodup)
    (hr : (rd.race_results.map RaceResultRow.Abbreviation).Nodup) :
    (max rd.quali_results.length rd.race_results.length ≤
      (create_combined_dataframe rd).length ∧
     (create_combined_dataframe rd).length ≤
      rd.quali_results.length + rd.race_results.length) ∧
    (∀ d : String,
      (d ∈ rd.quali_results.map QualiResultRow.Abbreviation ∨
       d ∈ rd.race_results.map RaceResultRow.Abbreviation) →
      ((create_combined_dataframe rd).map CombinedRow.driver).count d = 1) ∧
    (∀ row ∈ create_combined_dataframe rd,
      row.driver ∉ rd.race_results.map RaceResultRow.Abbreviation →
      row.race_position = none ∧ row.points = none ∧ row.status = none ∧
      row.position_change = none) ∧
    (∀ row ∈ create_combined_dataframe rd,
      row.driver ∉ rd.quali_results.map QualiResultRow.Abbreviation →
      row.quali_position = none ∧ row.team = none ∧ row.quali_time = none ∧
      row.position_change = none) := by
  classical
  set qdf := make_quali_df rd.quali_results with hqdf
  have hqk : qdf.map QualiDfRow.Abbreviation =
      rd.quali_results.map QualiResultRow.Abbreviation :=
    make_quali_df_keys rd.quali_results
  have hqlen : qdf.length = rd.quali_results.length := by
    simp [hqdf, make_quali_df]
  have hq' : (qdf.map QualiDfRow.Abbreviation).Nodup := by
    rw [hqk]; exact hq
  have hdrv : (create_combined_dataframe rd).map CombinedRow.driver =
      (mergeOuter qdf rd.race_results).map MergedRow.driver := by
    simp only [create_combined_dataframe, List.map_map, hqdf]
    rfl
  have hmerge_drv : (mergeOuter qdf rd.race_results).map MergedRow.driver =
      qdf.map QualiDfRow.Abbreviation ++
        (unmatchedRace qdf rd.race_results).map RaceResultRow.Abbreviation := by
    simp only [mergeOuter, List.map_append,
      mergeFirst_map_driver qdf rd.race_results hr, List.map_map]
    rfl
  have hlen_out : (create_combined_dataframe rd).length =
      rd.quali_results.length +
        (unmatchedRace qdf rd.race_results).length := by
    have := congrArg List.length (hdrv.trans hmerge_drv)
    simpa [hqlen] using this
  have hunm_sub :
      List.Sublist ((unmatchedRace qdf rd.race_results).map
        RaceResultRow.Abbreviation)
        (rd.race_results.map RaceResultRow.Abbreviation) :=
    (List.filter_sublist rd.race_results).map RaceResultRow.Abbreviation
  have hunm_nodup : ((unmatchedRace qdf rd.race_results).map
      RaceResultRow.Abbreviation).Nodup := hr.sublist hunm_sub
  refine ⟨⟨?_, ?_⟩, ?_, ?_, ?_⟩
  · -- lower bound
    rw [max_le_iff, hlen_out]
    refine ⟨Nat.le_add_right _ _, ?_⟩
    -- count the matched race rows against the left table
    have hpart := List.length_eq_length_filter_add
      (l := rd.race_results)
      (fun r => qdf.all fun q => !(q.Abbreviation == r.Abbreviation))
    have hmatched : (rd.race_results.filter
        (fun r => !(qdf.all fun q => !(q.Abbreviation == r.Abbreviation)))).length ≤
        rd.quali_results.length := by
      set ms := rd.race_results.filter
        (fun r => !(qdf.all fun q => !(q.Abbreviation == r.Abbreviation)))
        with hms
      have hms_nodup : (ms.map RaceResultRow.Abbreviation).Nodup :=
        hr.sublist ((List.filter_sublist rd.race_results).map _)
      have hms_mem : ∀ k ∈ ms.map RaceResultRow.Abbreviation,
          k ∈ qdf.map QualiDfRow.Abbreviation := by
        intro k hk
        rw [List.mem_map] at hk
        obtain ⟨r, hrm, rfl⟩ := hk
        rw [hms, List.mem_filter] at hrm
        have h2 := hrm.2
        simp only [Bool.not_eq_true', List.all_eq_false, Bool.not_eq_false,
          beq_iff_eq] at h2
        obtain ⟨q, hqm, he⟩ := h2
        rw [List.mem_map]
        exact ⟨q, hqm, he⟩
      calc ms.length = (ms.map RaceResultRow.Abbreviation).length := by simp
        _ = (ms.map RaceResultRow.Abbreviation).toFinset.card :=
            (List.toFinset_card_of_nodup hms_nodup).symm
        _ ≤ (qdf.map QualiDfRow.Abbreviation).toFinset.card := by
            refine Finset.card_le_card fun k hk => ?_
            rw [List.mem_toFinset] at hk ⊢
            exact hms_mem k hk
        _ ≤ (qdf.map QualiDfRow.Abbreviation).length :=
            List.toFinset_card_le _
        _ = rd.quali_results.length := by rw [hqk]; simp
    calc rd.race_results.length
        = _ + _ := hpart
      _ ≤ (unmatchedRace qdf rd.race_results).length +
            rd.quali_results.length := by
          exact Nat.add_le_add_left hmatched _
      _ = rd.quali_results.length +
            (unmatchedRace qdf rd.race_results).length := Nat.add_comm _ _
  · -- upper bound
    rw [hlen_out]
    exact Nat.add_le_add_left
      (by simpa [unmatchedRace] using
        List.length_filter_le _ rd.race_results) _
  · -- each driver code appears exactly once
    intro d hd
    rw [hdrv, hmerge_drv, List.count_append]
    rcases Classical.em
        (d ∈ rd.quali_results.map QualiResultRow.Abbreviation) with hdl | hdl
    · have h1 : (qdf.map QualiDfRow.Abbreviation).count d = 1 :=
        List.count_eq_one_of_mem hq' (by rw [hqk]; exact hdl)
      have h2 : ((unmatchedRace qdf rd.race_results).map
          RaceResultRow.Abbreviation).count d = 0 := by
        refine List.count_eq_zero_of_not_mem fun hmem => ?_
        rw [List.mem_map] at hmem
        obtain ⟨r, hrm, rfl⟩ := hmem
        rw [unmatchedRace_mem] at hrm
        exact hrm.2 (by rw [hqk]; exact hdl)
      omega
    · have hdr : d ∈ rd.race_results.map RaceResultRow.Abbreviation := by
        rcases hd with h | h
        · exact absurd h hdl
        · exact h
      have h1 : (qdf.map QualiDfRow.Abbreviation).count d = 0 := by
        refine List.count_eq_zero_of_not_mem fun hmem => ?_
        exact hdl (by rw [← hqk]; exact hmem)
      have h2 : ((unmatchedRace qdf rd.race_results).map
          RaceResultRow.Abbreviation).count d = 1 := by
        refine List.count_eq_one_of_mem hunm_nodup ?_
        rw [List.mem_map] at hdr
        obtain ⟨r, hrm, rfl⟩ := hdr
        rw [List.mem_map]
        refine ⟨r, ?_, rfl⟩
        rw [unmatchedRace_mem]
        exact ⟨hrm, fun hmem => hdl (by rw [← hqk]; exact hmem)⟩
      omega
  · -- driver absent from the race table: race-side fields null
    intro row hrow hnot
    simp only [create_combined_dataframe, List.mem_map, ← hqdf] at hrow
    obtain ⟨m, hm, rfl⟩ := hrow
    rw [mergeOuter, List.mem_append] at hm
    rcases hm with hm | hm
    · rw [List.mem_flatMap] at hm
      obtain ⟨q, hqm, hmb⟩ := hm
      rcases mergeBlock_cases rd.race_results q m hmb with rfl | ⟨r, hrm, hre, rfl⟩
      · simp [leftOnlyRow, optSub]
      · exact absurd (by
          show (bothRow q r).driver ∈ _
          have : (bothRow q r).driver = r.Abbreviation := by
            simp [bothRow, hre]
          rw [this]
          exact List.mem_map_of_mem _ hrm) hnot
    · rw [List.mem_map] at hm
      obtain ⟨r, hrm, rfl⟩ := hm
      rw [unmatchedRace_mem] at hrm
      exact absurd (List.mem_map_of_mem _ hrm.1) (by simpa [rightOnlyRow] using hnot)
  · -- driver absent from the qualifying table: qualifying fields null
    intro row hrow hnot
    simp only [create_combined_dataframe, List.mem_map, ← hqdf] at hrow
    obtain ⟨m, hm, rfl⟩ := hrow
    rw [mergeOuter, List.mem_append] at hm
    rcases hm with hm | hm
    · rw [List.mem_flatMap] at hm
      obtain ⟨q, hqm, hmb⟩ := hm
      have hq0 := mergeBlock_driver rd.race_results q m hmb
      refine absurd ?_ hnot
      show m.driver ∈ _
      rw [hq0, ← hqk]
      exact List.mem_map_of_mem _ hqm
    · rw [List.mem_map] at hm
      obtain ⟨r, hrm, rfl⟩ := hm
      simp [rightOnlyRow, optSub]

/-- Witness: applying the outer-join theorem to the concrete one-driver
event. -/
theorem reconcile_outer_join_bounds_witness :
    ((create_combined_dataframe demo_race_data).map CombinedRow.driver).count
      "VER" = 1 :=
  (reconcile_outer_join_bounds demo_race_data (by decide) (by decide)).2.1
    "VER" (Or.inl (by decide))

/-- The position-named columns of the exported header, in header
order. -/
lemma dash_pos_cols :
    pos_cols dash_columns =
      ["quali_position", "race_position", "position_change"] := by decide

/-- The team-named columns of the exported header. -/
lemma dash_team_cols : team_cols dash_columns = ["team"] := by decide

/-- `numCol` at the qualifying-position column. -/
lemma numCol_quali :
    (fun r : DashRow => numCol r "quali_position") =
      fun r => r.quali_position := funext fun _ => rfl

/-- `numCol` at the race-position column. -/
lemma numCol_race :
    (fun r : DashRow => numCol r "race_position") =
      fun r => r.race_position := funext fun _ => rfl

/-- C3 counterexample: the collector's `comparison` dataframe, for a
driver who qualified 3rd and finished 7th, records a position change of
−4 where race minus qualifying position is +4. -/
theorem position_change_collector_cex :
    (analyze_sample_comparison [⟨some 3, "VER"⟩] [⟨some 7, "VER"⟩]).map
      SampleComparisonRow.PositionChange = [some (-4)] ∧
    optSub (some 7) (some 3) = some 4 ∧
    (some (-4) : Option ℚ) ≠ some 4 := by
  refine ⟨?_, by norm_num [optSub], by norm_num⟩
  simp only [analyze_sample_comparison, List.flatMap_cons, List.flatMap_nil,
    List.filter, List.map_cons, List.map_nil]
  norm_num [optSub]

/-- C3 amended: the reconcile operation and the dashboard compute the
position change as race position minus qualifying position (null when
either side is null; qualifying 3 and race 7 give +4, qualifying 7 and
race 2 give −5), but the collector's `analyze_sample_data` computes the
opposite sign, qualifying minus race position. -/
theorem position_change_race_minus_quali :
    (∀ rd : RaceData, ∀ row ∈ create_combined_dataframe rd,
      row.position_change = optSub row.race_position row.quali_position) ∧
    optSub (some 7) (some 3) = some 4 ∧
    optSub (some 2) (some 7) = some (-5) ∧
    (∀ a : Option ℚ, optSub a none = none ∧ optSub none a = none) ∧
    (∀ dd : DashFrame, dd.cols = dash_columns → dd.rows ≠ [] →
      (calculate_metrics dd).avg_position_change =
        seriesMean (dd.rows.map fun r =>
          optSub r.race_position r.quali_position)) ∧
    (∀ (qs : List QualiPosRow) (rs : List RacePosRow),
      ∀ row ∈ analyze_sample_comparison qs rs,
        row.PositionChange = optSub row.QualiPos row.RacePos) := by
  refine ⟨?_, by norm_num [optSub], by norm_num [optSub], ?_, ?_, ?_⟩
  · intro rd row hrow
    simp only [create_combined_dataframe, List.mem_map] at hrow
    obtain ⟨m, _, rfl⟩ := hrow
    rfl
  · intro a
    cases a <;> exact ⟨rfl, rfl⟩
  · intro dd hcols hne
    have hemp : dd.rows.isEmpty = false := by
      simpa [List.isEmpty_iff] using hne
    simp only [calculate_metrics, hcols, hemp, Bool.false_eq_true,
      if_false, dash_pos_cols, dash_team_cols, numCol_quali, numCol_race,
      List.zip_map']
    simp only [List.map_map, Function.comp_def]
  · intro qs rs row hrow
    simp only [analyze_sample_comparison, List.mem_flatMap,
      List.mem_map] at hrow
    obtain ⟨q, _, r, _, rfl⟩ := hrow
    rfl

/-- Witness: the amended C3 at the concrete one-driver event and at the
concrete dashboard frame. -/
theorem position_change_race_minus_quali_witness :
    demo_combined_row.position_change =
      optSub demo_combined_row.race_position
        demo_combined_row.quali_position ∧
    (calculate_metrics demo_dash_frame).avg_position_change =
      seriesMean (demo_dash_frame.rows.map fun r =>
        optSub r.race_position r.quali_position) :=
  ⟨position_change_race_minus_quali.1 demo_race_data demo_combined_row
      (by rw [demo_combined_eval]; exact List.mem_singleton.mpr rfl),
   position_change_race_minus_quali.2.2.2.2.1 demo_dash_frame rfl
      (by simp [demo_dash_frame])⟩

/-- Appending all-null entries does not change a series mean. -/
lemma seriesMean_append_none (a b : List (Option ℚ))
    (hb : ∀ x ∈ b, x = none) : seriesMean (a ++ b) = seriesMean a := by
  have : b.filterMap id = [] := by
    refine List.filterMap_eq_nil_iff.mpr fun x hx => ?_
    rw [hb x hx]; rfl
  simp only [seriesMean, List.filterMap_append, this, List.append_nil]

/-- C4: the derived statistics are computed over the rows with both
positions non-null only — appending rows with a null position on either
side changes neither the analysis result (statistics and clean rows)
nor the dashboard's correlation, R² and mean position change. -/
theorem stats_drop_null_position_rows
    (df extra : List CombinedRow)
    (hextra : ∀ r ∈ extra,
      r.quali_position = none ∨ r.race_position = none)
    (dd : DashFrame) (extra2 : List DashRow)
    (hextra2 : ∀ r ∈ extra2,
      r.quali_position = none ∨ r.race_position = none)
    (hcols : dd.cols = dash_columns) (hne : dd.rows ≠ []) :
    analyze_qualifying_performance (df ++ extra) =
      analyze_qualifying_performance df ∧
    (calculate_metrics ⟨dd.cols, dd.rows ++ extra2⟩).qualifying_correlation =
      (calculate_metrics dd).qualifying_correlation ∧
    (calculate_metrics ⟨dd.cols, dd.rows ++ extra2⟩).r_squared =
      (calculate_metrics dd).r_squared ∧
    (calculate_metrics ⟨dd.cols, dd.rows ++ extra2⟩).avg_position_change =
      (calculate_metrics dd).avg_position_change := by
  have hfe : dropna_positions extra = [] := by
    refine List.filter_eq_nil_iff.mpr fun r hr => ?_
    rcases hextra r hr with h | h <;> simp [h]
  have hclean : dropna_positions (df ++ extra) = dropna_positions df := by
    simp only [dropna_positions] at hfe ⊢
    rw [List.filter_append, hfe, List.append_nil]
  refine ⟨by simp only [analyze_qualifying_performance, hclean], ?_⟩
  have hemp : dd.rows.isEmpty = false := by
    simpa [List.isEmpty_iff] using hne
  have hemp2 : (dd.rows ++ extra2).isEmpty = false := by
    have hne2 : dd.rows ++ extra2 ≠ [] := fun h =>
      hne (List.append_eq_nil.mp h).1
    simpa [List.isEmpty_iff] using hne2
  have hpairs :
      corrPairs ((dd.rows ++ extra2).map fun r => r.quali_position)
        ((dd.rows ++ extra2).map fun r => r.race_position) =
      corrPairs (dd.rows.map fun r => r.quali_position)
        (dd.rows.map fun r => r.race_position) := by
    simp only [corrPairs, List.map_append]
    rw [List.zip_append (by simp)]
    rw [List.filterMap_append]
    have : ((extra2.map fun r => r.quali_position).zip
        (extra2.map fun r => r.race_position)).filterMap
        (fun p : Option ℚ × Option ℚ =>
          match p.1, p.2 with
          | some a, some b => some (a, b)
          | _, _ => none) = [] := by
      rw [List.zip_map']
      rw [List.filterMap_map]
      refine List.filterMap_eq_nil_iff.mpr fun r hr => ?_
      rcases hextra2 r hr with h | h <;> simp [h]
    rw [this, List.append_nil]
  have hchanges :
      ((((dd.rows ++ extra2).map fun r => r.quali_position).zip
        ((dd.rows ++ extra2).map fun r => r.race_position)).map
          fun p => optSub p.2 p.1) =
      (((dd.rows.map fun r => r.quali_position).zip
        (dd.rows.map fun r => r.race_position)).map
          fun p => optSub p.2 p.1) ++
        (extra2.map fun r => optSub r.race_position r.quali_position) := by
    simp only [List.map_append]
    rw [List.zip_append (by simp)]
    simp only [List.map_append, List.zip_map', List.map_map]
    rfl
  have hnone : ∀ x ∈ extra2.map fun r =>
      optSub r.race_position r.quali_position, x = none := by
    intro x hx
    rw [List.mem_map] at hx
    obtain ⟨r, hr, rfl⟩ := hx
    rcases hextra2 r hr with h | h <;> simp [optSub, h]
  simp only [calculate_metrics, hcols, hemp, hemp2, Bool.false_eq_true,
    if_false, dash_pos_cols, dash_team_cols, numCol_quali, numCol_race]
  simp only [seriesCorr, hpairs, hchanges,
    seriesMean_append_none _ _ hnone]
  exact ⟨trivial, trivial, trivial⟩

/-- Witness: the statistics invariance at concrete inputs. -/
theorem stats_drop_null_position_rows_witness :
    analyze_qualifying_performance
        ([demo_combined_row] ++ [demo_null_row]) =
      analyze_qualifying_performance [demo_combined_row] ∧
    (calculate_metrics
        ⟨demo_dash_frame.cols,
         demo_dash_frame.rows ++ [demo_dash_null_row]⟩).qualifying_correlation =
      (calculate_metrics demo_dash_frame).qualifying_correlation :=
  have h := stats_drop_null_position_rows [demo_combined_row]
    [demo_null_row]
    (by intro r hr
        rw [List.mem_singleton] at hr
        subst hr
        exact Or.inl rfl)
    demo_dash_frame [demo_dash_null_row]
    (by intro r hr
        rw [List.mem_singleton] at hr
        subst hr
        exact Or.inl rfl)
    rfl (by simp [demo_dash_frame])
  ⟨h.1, h.2.1⟩

/-- C5: a provider failure yields `None` from the per-event fetch
instead of propagating; the season loop keeps exactly the successful
events, in order; and in the concrete five-event run where event 3
raises, the dataset is built from the other four events. -/
theorem partial_failure_tolerated :
    (∀ (provider : Int → String → Except String RaceData)
        (y : Int) (r : String),
      collect_race_data provider y r = none ↔
        ∃ e, provider y r = Except.error e) ∧
    (∀ (provider : Int → String → Except String RaceData)
        (races : List (String × String)),
      season_frames provider 2024 races =
        races.filterMap fun p =>
          (collect_race_data provider 2024 p.1).map fun rd =>
            addWeather p.2 (create_combined_dataframe rd)) ∧
    collect_race_data demo_provider 2024 "E3" = none ∧
    collect_full_season_data demo_provider demo_events =
      some [⟨demo_combined_row, "Dry"⟩, ⟨demo_combined_row, "Dry"⟩,
            ⟨demo_combined_row, "Dry"⟩, ⟨demo_combined_row, "Dry"⟩] := by
  refine ⟨?_, ?_, ?_, ?_⟩
  · intro provider y r
    cases h : provider y r <;> simp [collect_race_data, h]
  · intro provider races
    induction races with
    | nil => rfl
    | cons p rest ih =>
      obtain ⟨name, weather⟩ := p
      cases h : collect_race_data provider 2024 name <;>
        simp [season_frames, h, ih, List.filterMap_cons]
  · simp [collect_race_data, demo_provider]
  · simp only [collect_full_season_data, demo_events, season_frames,
      collect_race_data, demo_provider]
    norm_num
    simp [demo_combined_eval, addWeather]

/-- Looking a key up after folding a value for that key. -/
lemma find_addToAgg_eq (k : String) (v : Option ℚ)
    (acc : List (String × ℚ × ℕ)) :
    (addToAgg k v acc).find? (fun e => e.1 == k) =
      some (match acc.find? (fun e => e.1 == k) with
        | none => aggEntry k v
        | some (k0, s, c) =>
          match v with
          | some x => (k0, s + x, c + 1)
          | none => (k0, s, c)) := by
  induction acc with
  | nil =>
    have hk : ((aggEntry k v).1 == k) = true := by
      cases v <;> simp [aggEntry]
    cases v <;> simp [addToAgg, List.find?_cons, aggEntry]
  | cons e rest ih =>
    obtain ⟨k0, s, c⟩ := e
    by_cases h : (k0 == k) = true
    · have hk0 : k0 = k := eq_of_beq h
      subst hk0
      cases v <;> simp [addToAgg, List.find?_cons]
    · have h' : (k0 == k) = false := by
        cases hb : (k0 == k)
        · rfl
        · exact absurd hb h
      simp [addToAgg, h', List.find?_cons, ih]

/-- Folding a value for one key does not disturb lookups of another. -/
lemma find_addToAgg_ne (k t : String) (v : Option ℚ)
    (acc : List (String × ℚ × ℕ)) (h : (k == t) = false) :
    (addToAgg k v acc).find? (fun e => e.1 == t) =
      acc.find? (fun e => e.1 == t) := by
  induction acc with
  | nil =>
    have hk : ((aggEntry k v).1 == t) = false := by
      cases v <;> simpa [aggEntry] using h
    simp [addToAgg, List.find?_cons, hk]
  | cons e rest ih =>
    obtain ⟨k0, s, c⟩ := e
    by_cases hk0 : (k0 == k) = true
    · have : k0 = k := eq_of_beq hk0
      subst this
      cases v <;> simp [addToAgg, List.find?_cons, h]
    · have h0 : (k0 == k) = false := by
        cases hb : (k0 == k)
        · rfl
        · exact absurd hb hk0
      by_cases ht : (k0 == t) = true
      · simp [addToAgg, h0, List.find?_cons, ht]
      · have ht' : (k0 == t) = false := by
          cases hb : (k0 == t)
          · rfl
          · exact absurd hb ht
        simp [addToAgg, h0, List.find?_cons, ht', ih]

/-- The aggregation table looked up at a team key holds exactly the sum
and count of that team's non-null qualifying positions. -/
lemma groupAgg_find (df : List CombinedRow) (t : String) :
    (groupAgg df).find? (fun e => e.1 == t) =
      if team_rows df t = [] then none
      else some (t,
        (((team_rows df t).map fun r => r.quali_position).filterMap id).sum,
        (((team_rows df t).map fun r => r.quali_position).filterMap id).length) := by
  induction df with
  | nil => rfl
  | cons r rest ih =>
    cases hteam : r.team with
    | none =>
      have hrow : (r.team == some t) = false := by
        simp [hteam]
      have htr : team_rows (r :: rest) t = team_rows rest t := by
        simp only [team_rows, List.filter_cons, hrow, Bool.false_eq_true,
          if_false]
      simp only [groupAgg, hteam]
      rw [htr]
      exact ih
    | some k =>
      by_cases hk : (k == t) = true
      · have hkt : k = t := eq_of_beq hk
        subst hkt
        have hrow : (r.team == some k) = true := by
          simp [hteam]
        simp only [groupAgg, hteam, team_rows, List.filter_cons, hrow,
          if_true]
        rw [find_addToAgg_eq]
        simp only [team_rows] at ih
        rw [ih]
        by_cases hemp : rest.filter (fun r => r.team == some k) = []
        · simp only [hemp, if_true, List.map_cons, List.map_nil]
          cases hv : r.quali_position <;>
            simp [aggEntry, List.filterMap_cons, hemp, hv]
        · simp only [hemp, if_false]
          cases hv : r.quali_position <;>
            simp [List.filterMap_cons, hemp, hv, add_comm]
      · have hk' : (k == t) = false := by
          cases hb : (k == t)
          · rfl
          · exact absurd hb hk
        have hrow : (r.team == some t) = false := by
          rw [hteam]
          simpa using hk'
        have htr : team_rows (r :: rest) t = team_rows rest t := by
          simp only [team_rows, List.filter_cons, hrow, Bool.false_eq_true,
            if_false]
        simp only [groupAgg, hteam]
        rw [htr, find_addToAgg_ne _ _ _ _ hk']
        exact ih

/-- C8: the grouped per-team mean equals the arithmetic mean of that
team's qualifying positions; the column-wise correlation of a dataset
holding exactly the pairs `ps` is the Pearson kernel of `ps` itself;
and the three-team example [1,2,3], [4,5,6], [7,8,9] yields means 2, 5
and 8. -/
theorem grouped_summary_spec :
    (∀ (df : List CombinedRow) (t : String),
      team_quali_mean df t =
        if team_rows df t = [] then none
        else seriesMean ((team_rows df t).map fun r => r.quali_position)) ∧
    (∀ ps : List (ℚ × ℚ),
      seriesCorr (ps.map fun p => some p.1) (ps.map fun p => some p.2) =
        corrKernelPairs ps) ∧
    team_quali_mean demo_team_rows "TeamA" = some 2 ∧
    team_quali_mean demo_team_rows "TeamB" = some 5 ∧
    team_quali_mean demo_team_rows "TeamC" = some 8 := by
  have hmean : ∀ (df : List CombinedRow) (t : String),
      team_quali_mean df t =
        if team_rows df t = [] then none
        else seriesMean ((team_rows df t).map fun r => r.quali_position) := by
    intro df t
    rw [team_quali_mean, groupAgg_find]
    by_cases hemp : team_rows df t = []
    · simp [hemp]
    · simp only [hemp, if_false, seriesMean]
      rcases hcase : ((team_rows df t).map fun r =>
          r.quali_position).filterMap id with _ | ⟨v, vs⟩
      · simp [hcase]
      · simp [hcase]
  refine ⟨hmean, ?_, ?_, ?_, ?_⟩
  · intro ps
    simp only [seriesCorr, corrPairs, List.zip_map', List.filterMap_map]
    have hfun : ((fun p : Option ℚ × Option ℚ =>
        match p.1, p.2 with
        | some a, some b => some (a, b)
        | _, _ => none) ∘ fun a : ℚ × ℚ => (some a.1, some a.2)) =
        fun p : ℚ × ℚ => some (p.1, p.2) := funext fun _ => rfl
    rw [hfun]
    have hid : (ps.filterMap fun p : ℚ × ℚ => some (p.1, p.2)) = ps := by
      simp
    rw [hid]
  · rw [hmean]
    simp [team_rows, demo_team_rows, mk_team_row, List.filter_cons,
      seriesMean, List.filterMap_cons]
    norm_num
  · rw [hmean]
    simp [team_rows, demo_team_rows, mk_team_row, List.filter_cons,
      seriesMean, List.filterMap_cons]
    norm_num
  · rw [hmean]
    simp [team_rows, demo_team_rows, mk_team_row, List.filter_cons,
      seriesMean, List.filterMap_cons]
    norm_num

/-- C9 counterexample: for a loaded frame lacking the position columns
the histogram and team charts return no figure but also no visible
warning (empty warning list), against "skipped with a visible
warning". -/
theorem missing_columns_no_warning_cex :
    create_position_change_histogram df_no_positions = (none, []) ∧
    create_team_performance_chart df_no_positions = (none, []) := by
  constructor <;> decide

/-- C9 amended: a chart whose needed columns are missing is skipped (no
figure, nothing raised) and each chart whose own columns are present
still renders; the qualifying chart warns visibly about its missing
columns, while the histogram and team charts skip silently. -/
theorem missing_columns_skip_chart :
    (∀ (P : PyPrims) (df : DashFrame),
      ("quali_time" ∉ df.cols ∨ "team" ∉ df.cols) →
      create_qualifying_chart P df = (none, [Warn.missingQualiCols])) ∧
    (∀ df : DashFrame, (pos_cols df.cols).length < 2 →
      create_position_change_histogram df = (none, [])) ∧
    (∀ df : DashFrame, pos_cols df.cols = [] ∨ team_cols df.cols = [] →
      create_team_performance_chart df = (none, [])) ∧
    (∀ df : DashFrame, 2 ≤ (pos_cols df.cols).length →
      (create_position_change_histogram df).1.isSome = true) ∧
    (∀ df : DashFrame, pos_cols df.cols ≠ [] → team_cols df.cols ≠ [] →
      (create_team_performance_chart df).1.isSome = true) := by
  refine ⟨?_, ?_, ?_, ?_, ?_⟩
  · intro P df h
    unfold create_qualifying_chart
    rw [if_pos h]
  · intro df h
    unfold create_position_change_histogram
    rcases hp : pos_cols df.cols with _ | ⟨a, _ | ⟨b, rest⟩⟩
    · rfl
    · rfl
    · rw [hp] at h
      simp only [List.length_cons] at h
      omega
  · intro df h
    unfold create_team_performance_chart
    rcases hp : pos_cols df.cols with _ | ⟨a, ta⟩
    · rfl
    · rcases ht : team_cols df.cols with _ | ⟨b, tb⟩
      · rfl
      · rcases h with h | h
        · rw [hp] at h
          exact absurd h (by simp)
        · rw [ht] at h
          exact absurd h (by simp)
  · intro df h
    unfold create_position_change_histogram
    rcases hp : pos_cols df.cols with _ | ⟨a, _ | ⟨b, rest⟩⟩
    · rw [hp] at h
      simp at h
    · rw [hp] at h
      simp at h
    · rfl
  · intro df h1 h2
    unfold create_team_performance_chart
    rcases hp : pos_cols df.cols with _ | ⟨a, ta⟩
    · exact absurd hp h1
    · rcases ht : team_cols df.cols with _ | ⟨b, tb⟩
      · exact absurd ht h2
      · rfl

/-- Witness: the skip behaviour at a concrete frame lacking the
qualifying-chart columns. -/
theorem missing_columns_skip_chart_witness :
    create_qualifying_chart pyFloatPrims ⟨["driver"], []⟩ =
      (none, [Warn.missingQualiCols]) :=
  missing_columns_skip_chart.1 pyFloatPrims ⟨["driver"], []⟩
    (Or.inl (by decide))

/-- C10: `time_to_seconds` is total — it returns exactly the
day-prefixed H:M:S parse when that succeeds, otherwise Python's float
parse, and `none` when neither applies — and the qualifying chart plots
exactly the clean rows whose time converts, dropping (not failing on)
the rows whose conversion yields `none`. -/
theorem time_to_seconds_total :
    (∀ (P : PyPrims) (x : PyScalar),
      time_to_seconds P x = (dayHMSparse P x).or (pyFloat P x)) ∧
    (∀ (P : PyPrims) (df : DashFrame),
      "quali_time" ∈ df.cols → "team" ∈ df.cols →
      plotted_points P df =
        (df.rows.filter fun r =>
          r.quali_time.isSome && r.team.isSome).filterMap fun r =>
          match r.quali_time with
          | some t =>
            (time_to_seconds P (PyScalar.str t)).map fun v => (r, v)
          | none => none) := by
  constructor
  · intro P x
    cases x with
    | num q =>
      have hnd := P.num_str_no_days q
      simp only [time_to_seconds, dayHMSparse, pyStr, pyFloat, hnd,
        Bool.false_eq_true, if_false]
      rfl
    | str s0 =>
      by_cases hd : containsSub "days".data s0.data = true
      · have hfl := P.days_not_float s0 hd
        simp only [time_to_seconds, dayHMSparse, pyStr, pyFloat, hd,
          if_true]
        cases hlast : (wordsAux s0.data []).getLast? with
        | none => simp [hfl]
        | some tp =>
          rcases hsp : splitOnCharAux ':' tp [] with
            _ | ⟨b0, _ | ⟨b1, _ | ⟨b2, _ | ⟨b3, rest⟩⟩⟩⟩ <;>
            simp only [] <;>
            first
              | (cases hm : P.floatOfString ⟨b1⟩ with
                 | none => simp [hfl]
                 | some m =>
                   cases hsec : P.floatOfString ⟨b2⟩ with
                   | none => simp [hfl]
                   | some sec => simp)
              | simp [hfl]
      · have hd' : containsSub "days".data s0.data = false := by
          cases hb : containsSub "days".data s0.data
          · rfl
          · exact absurd hb hd
        simp only [time_to_seconds, dayHMSparse, pyStr, pyFloat, hd',
          Bool.false_eq_true, if_false]
        rfl
  · intro P df h1 h2
    have hcond : ¬("quali_time" ∉ df.cols ∨ "team" ∉ df.cols) := fun h =>
      h.elim (fun hh => hh h1) (fun hh => hh h2)
    unfold plotted_points create_qualifying_chart
    rw [if_neg hcond]
    by_cases he :
        (df.rows.filter fun r =>
          r.quali_time.isSome && r.team.isSome).isEmpty = true
    · rw [if_pos he]
      rw [List.isEmpty_iff.mp he]
      rfl
    · rw [if_neg (by simpa using he)]
      by_cases hw :
          ((df.rows.filter fun r =>
            r.quali_time.isSome && r.team.isSome).filterMap fun r =>
            match r.quali_time with
            | some t =>
              (time_to_seconds P (PyScalar.str t)).map fun v => (r, v)
            | none => none).isEmpty = true
      · rw [if_pos hw]
        rw [List.isEmpty_iff.mp hw]
      · rw [if_neg (by simpa using hw)]

/-- Witness: the plotted-rows characterisation at a concrete frame. -/
theorem time_to_seconds_total_witness :
    plotted_points pyFloatPrims demo_dash_frame =
      (demo_dash_frame.rows.filter fun r =>
        r.quali_time.isSome && r.team.isSome).filterMap fun r =>
        match r.quali_time with
        | some t =>
          (time_to_seconds pyFloatPrims (PyScalar.str t)).map fun v => (r, v)
        | none => none :=
  time_to_seconds_total.2 pyFloatPrims demo_dash_frame (by decide)
    (by decide)

end F1
